import Mathlib

/-!
Shallow embedding of the pod-watcher service (src/main.py) and proofs of the
testable properties of its specification.

The Python module keeps a dict `pod_map` from pod IP to a metadata dict,
populated by an initial listing and a watch loop, and serves lookups over
HTTP.  Pure data is translated directly; Python attribute access on `None`
(which raises `AttributeError`) is modelled with `Except`; Python dict
assignment, guarded `del` and membership are modelled on association lists.
-/

namespace PodWatcher

/-- One entry of `pod.status.conditions` on the input object. -/
structure PodCondition where
  type : String
  status : String
  reason : Option String
  message : Option String
  deriving DecidableEq

/-- One entry of `container.ports` on the input object. -/
structure ContainerPort where
  container_port : Nat
  protocol : Option String
  deriving DecidableEq

/-- One entry of `pod.spec.containers` on the input object. -/
structure PodContainer where
  name : String
  image : String
  ports : Option (List ContainerPort)
  deriving DecidableEq

/-- The `pod.metadata` sub-object. -/
structure PodMeta where
  name : String
  «namespace» : String
  uid : String
  labels : Option (List (String × String))
  annotations : Option (List (String × String))
  deriving DecidableEq

/-- The `pod.spec` sub-object. -/
structure PodSpec where
  node_name : Option String
  containers : Option (List PodContainer)
  deriving DecidableEq

/-- The `pod.status` sub-object.  `start_time` is modelled as its ISO string
(the source only ever uses `start_time.isoformat()`). -/
structure PodStatus where
  phase : Option String
  pod_ip : Option String
  host_ip : Option String
  start_time : Option String
  conditions : Option (List PodCondition)
  deriving DecidableEq

/-- A pod object as delivered by the platform client.  Each sub-object may be
`None`; accessing an attribute on an absent sub-object raises in Python. -/
structure Pod where
  metadata : Option PodMeta
  spec : Option PodSpec
  status : Option PodStatus
  deriving DecidableEq

/-- A condition entry of the produced metadata record. -/
structure ConditionRecord where
  type : String
  status : String
  reason : Option String
  message : Option String
  deriving DecidableEq

/-- A port entry of a container descriptor in the metadata record. -/
structure PortRecord where
  containerPort : Nat
  protocol : Option String
  deriving DecidableEq

/-- A container descriptor in the metadata record. -/
structure ContainerRecord where
  name : String
  image : String
  ports : List PortRecord
  deriving DecidableEq

/-- The normalized metadata record built by `extract_pod_metadata`. -/
structure PodMetadata where
  name : String
  «namespace» : String
  uid : String
  labels : List (String × String)
  annotations : List (String × String)
  node_name : Option String
  phase : Option String
  pod_ip : Option String
  host_ip : Option String
  start_time : Option String
  conditions : List ConditionRecord
  containers : List ContainerRecord
  deriving DecidableEq

/-- `extract_pod_metadata` (src/main.py lines 45-82).  Accessing `metadata`,
`spec` or `status` when the sub-object is `None` raises, modelled as
`Except.error`.  Absent optional collections normalize to empty ones
(`or {}` on labels/annotations, the truthiness guards on conditions,
containers and ports) and an absent start time stays absent. -/
def extract_pod_metadata (pod : Pod) : Except String PodMetadata :=
  match pod.metadata, pod.spec, pod.status with
  | some md, some sp, some st =>
    .ok {
      name := md.name
      «namespace» := md.«namespace»
      uid := md.uid
      labels := md.labels.getD []
      annotations := md.annotations.getD []
      node_name := sp.node_name
      phase := st.phase
      pod_ip := st.pod_ip
      host_ip := st.host_ip
      start_time := st.start_time
      conditions := (st.conditions.getD []).map fun c =>
        { type := c.type, status := c.status, reason := c.reason, message := c.message }
      containers := (sp.containers.getD []).map fun c =>
        { name := c.name
          image := c.image
          ports := (c.ports.getD []).map fun p =>
            { containerPort := p.container_port, protocol := p.protocol } } }
  | _, _, _ => .error "AttributeError"

instance {ε α : Type} [DecidableEq ε] [DecidableEq α] : DecidableEq (Except ε α) := by
  intro a b
  cases a <;> cases b
  case error.error x y =>
    exact if h : x = y then .isTrue (by rw [h]) else .isFalse (by intro he; cases he; exact h rfl)
  case ok.ok x y =>
    exact if h : x = y then .isTrue (by rw [h]) else .isFalse (by intro he; cases he; exact h rfl)
  case error.ok x y => exact .isFalse (by intro he; cases he)
  case ok.error x y => exact .isFalse (by intro he; cases he)

/-! ### The Index Store: a Python dict modelled as an association list -/

/-- Python dict read: value at the first (and, along all code paths, only)
occurrence of the key. -/
def dictGet {α : Type} : List (String × α) → String → Option α
  | [], _ => none
  | (k, v) :: rest, q => if k = q then some v else dictGet rest q

/-- Python `key in dict`. -/
def dictContains {α : Type} (m : List (String × α)) (k : String) : Bool :=
  (dictGet m k).isSome

/-- Python dict assignment `m[k] = v`: replace in place if the key is bound,
otherwise append. -/
def dictInsert {α : Type} : List (String × α) → String → α → List (String × α)
  | [], k, v => [(k, v)]
  | (k0, v0) :: rest, k, v =>
    if k0 = k then (k, v) :: rest else (k0, v0) :: dictInsert rest k v

/-- Python `del m[k]` (on a key known to be present): drop the binding. -/
def dictErase {α : Type} : List (String × α) → String → List (String × α)
  | [], _ => []
  | (k0, v0) :: rest, k =>
    if k0 = k then dictErase rest k else (k0, v0) :: dictErase rest k

/-- The shared `pod_map`. -/
abbrev PodMap := List (String × PodMetadata)

/-- Store upsert: `pod_map[ip] = record` (src/main.py lines 98 and 116). -/
def upsert (m : PodMap) (a : String) (r : PodMetadata) : PodMap :=
  dictInsert m a r

/-- Store remove exactly as the code performs it (lines 119-120):
`if pod_ip in pod_map: del pod_map[pod_ip]`. -/
def remove (m : PodMap) (a : String) : PodMap :=
  if dictContains m a then dictErase m a else m

/-- Store read `pod_map[ip]` guarded by membership (lines 154-155). -/
def get (m : PodMap) (a : String) : Option PodMetadata :=
  dictGet m a

/-! ### Basic store lemmas -/

theorem dictGet_dictInsert {α : Type} (m : List (String × α)) (k q : String) (v : α) :
    dictGet (dictInsert m k v) q = if k = q then some v else dictGet m q := by
  induction m with
  | nil => simp [dictInsert, dictGet]
  | cons p rest ih =>
    obtain ⟨k0, v0⟩ := p
    by_cases h : k0 = k
    · subst h
      by_cases hq : k0 = q <;> simp [dictInsert, dictGet, hq]
    · by_cases hq : k0 = q
      · subst hq
        have hk : ¬ k = k0 := fun hk => h hk.symm
        simp [dictInsert, dictGet, h, hk]
      · simp [dictInsert, dictGet, h, hq, ih]

theorem dictGet_dictErase {α : Type} (m : List (String × α)) (k q : String) :
    dictGet (dictErase m k) q = if k = q then none else dictGet m q := by
  induction m with
  | nil => simp [dictErase, dictGet]
  | cons p rest ih =>
    obtain ⟨k0, v0⟩ := p
    by_cases h : k0 = k
    · subst h
      by_cases hq : k0 = q
      · subst hq
        simp [dictErase, ih]
      · simp [dictErase, dictGet, hq, ih]
    · by_cases hq : k0 = q
      · subst hq
        have hk : ¬ k = k0 := fun hk => h hk.symm
        simp [dictErase, dictGet, h, hk]
      · simp [dictErase, dictGet, h, hq, ih]

theorem dictGet_eq_none_of_not_contains {α : Type} (m : List (String × α)) (k : String)
    (h : dictContains m k = false) : dictGet m k = none := by
  unfold dictContains at h
  cases hg : dictGet m k with
  | none => rfl
  | some v => rw [hg] at h; simp at h

theorem get_upsert (m : PodMap) (a q : String) (r : PodMetadata) :
    get (upsert m a r) q = if a = q then some r else get m q :=
  dictGet_dictInsert m a q r

theorem get_remove (m : PodMap) (a q : String) :
    get (remove m a) q = if a = q then none else get m q := by
  unfold remove
  by_cases h : dictContains m a
  · simp only [h, if_true]
    exact dictGet_dictErase m a q
  · simp only [h, Bool.false_eq_true, if_false]
    by_cases hq : a = q
    · subst hq
      simp [get, dictGet_eq_none_of_not_contains m a (by simpa using h)]
    · simp [hq]

/-! ### Bootstrap listing (src/main.py lines 93-101) -/

/-- One pass of the bootstrap for-loop body:
`if pod.status.pod_ip: pod_map[pod.status.pod_ip] = extract_pod_metadata(pod)`.
Reading `pod.status.pod_ip` on an absent status raises; a falsy IP (absent or
empty string) skips the pod; extraction failure raises before the dict is
touched. -/
def bootstrap_step (m : PodMap) (pod : Pod) : Except String PodMap :=
  match pod.status with
  | none => .error "AttributeError"
  | some st =>
    match st.pod_ip with
    | none => .ok m
    | some ip =>
      if ip = "" then .ok m
      else
        match extract_pod_metadata pod with
        | .ok md => .ok (upsert m ip md)
        | .error e => .error e

/-- The whole bootstrap listing loop under its single try/except: an exception
raised at any item aborts the rest of the loop, and the partially filled map
reached so far is kept (the handler only logs). -/
def bootstrap_list (m : PodMap) : List Pod → PodMap
  | [] => m
  | pod :: rest =>
    match bootstrap_step m pod with
    | .ok m2 => bootstrap_list m2 rest
    | .error _ => m

/-- Whether every item of the listing processes without an exception. -/
def bootstrapOk (m : PodMap) : List Pod → Bool
  | [] => true
  | pod :: rest =>
    match bootstrap_step m pod with
    | .ok m2 => bootstrapOk m2 rest
    | .error _ => false

/-! ### Streaming (src/main.py lines 104-127) -/

/-- One event delivered by `w.stream`. -/
structure WatchEvent where
  type : String
  object : Pod
  deriving DecidableEq

/-- Processing of one streamed event (lines 107-121).  `pod.status.pod_ip` is
read first and raises when status is absent; `ADDED`/`MODIFIED` upsert when the
IP is truthy (extraction failure raises before the dict is touched); `DELETED`
deletes under the `pod_ip and pod_ip in pod_map` guard; other kinds are
ignored. -/
def apply_event (m : PodMap) (ev : WatchEvent) : Except String PodMap :=
  match ev.object.status with
  | none => .error "AttributeError"
  | some st =>
    if ev.type = "ADDED" ∨ ev.type = "MODIFIED" then
      match st.pod_ip with
      | none => .ok m
      | some ip =>
        if ip = "" then .ok m
        else
          match extract_pod_metadata ev.object with
          | .ok md => .ok (upsert m ip md)
          | .error e => .error e
    else if ev.type = "DELETED" then
      match st.pod_ip with
      | none => .ok m
      | some ip => if ip = "" then .ok m else .ok (remove m ip)
    else .ok m

/-- The for-loop over the events yielded by one opened stream: an exception
while processing an event stops the loop, keeping the map as mutated so far
and recording the error that escaped to the surrounding try. -/
def run_stream (m : PodMap) : List WatchEvent → PodMap × Option String
  | [] => (m, none)
  | ev :: rest =>
    match apply_event m ev with
    | .ok m2 => run_stream m2 rest
    | .error e => (m, some e)

/-- How one opened stream ends after yielding its events: the generator is
exhausted (the for-loop completes normally) or the stream itself raises. -/
inductive StreamEnd
  | exhausted
  | raised (msg : String)
  deriving DecidableEq

def StreamEnd.isRaised : StreamEnd → Bool
  | .exhausted => false
  | .raised _ => true

/-- One opened subscription: the events it yields and how it ends. -/
structure StreamIteration where
  events : List WatchEvent
  ending : StreamEnd
  deriving DecidableEq

/-- One pass of the `while True` body (lines 104-127): consume the stream; any
exception (from processing an event or from the stream itself) is caught and
followed by `time.sleep(5)`; a stream that ends without raising falls through
and is re-opened with no sleep.  Returns the new map and the backoff slept. -/
def watch_iteration (m : PodMap) (it : StreamIteration) : PodMap × Nat :=
  match run_stream m it.events with
  | (m2, some _) => (m2, 5)
  | (m2, none) =>
    match it.ending with
    | .raised _ => (m2, 5)
    | .exhausted => (m2, 0)

/-- The `while True` loop over a finite schedule of opened subscriptions.  It
has no exit path: every iteration produces a state for the next one. -/
def watch_loop (m : PodMap) : List StreamIteration → PodMap
  | [] => m
  | it :: rest => watch_loop (watch_iteration m it).1 rest

/-- `watch_pods` (lines 85-127) over a finite schedule: one bootstrap from the
initial listing, then the never-ending watch loop; bootstrapping appears
nowhere inside the loop. -/
def watch_pods (listing : List Pod) (iters : List StreamIteration) : PodMap :=
  watch_loop (bootstrap_list [] listing) iters

/-! ### HTTP point lookup (src/main.py lines 145-157) -/

/-- Response body of the `/pod` route: an error document or a record. -/
inductive RespBody
  | errorMsg (msg : String)
  | record (md : PodMetadata)
  deriving DecidableEq

/-- `get_pod_by_ip`: `request.args.get` yields `none` when the parameter is
absent; `if not ip:` also sends a supplied empty string to the 400 branch;
otherwise the map is consulted under the lock. -/
def get_pod_by_ip (m : PodMap) (ip : Option String) : Nat × RespBody :=
  match ip with
  | none => (400, .errorMsg "IP parameter is required")
  | some s =>
    if s = "" then (400, .errorMsg "IP parameter is required")
    else
      match get m s with
      | some md => (200, .record md)
      | none => (404, .errorMsg ("No pod found with IP " ++ s))

/-! ### Sequences of apply operations against the Index Store -/

/-- An apply operation against the Index Store: the upsert performed for
`ADDED`/`MODIFIED` events and the remove performed for `DELETED` events. -/
inductive ApplyOp
  | upsertOp (a : String) (r : PodMetadata)
  | removeOp (a : String)
  deriving DecidableEq

/-- The address an operation targets. -/
def opAddr : ApplyOp → String
  | .upsertOp a _ => a
  | .removeOp a => a

/-- Execute one operation against the store. -/
def applyStep (m : PodMap) : ApplyOp → PodMap
  | .upsertOp a r => upsert m a r
  | .removeOp a => remove m a

/-- Replay a finite sequence of operations in delivery order. -/
def applyOps (m : PodMap) : List ApplyOp → PodMap
  | [] => m
  | op :: rest => applyOps (applyStep m op) rest

/-- The last operation of the sequence that targets address `a`, if any. -/
def lastOpFor (a : String) : List ApplyOp → Option ApplyOp
  | [] => none
  | op :: rest =>
    match lastOpFor a rest with
    | some o => some o
    | none => if opAddr op = a then some op else none

/-- What the last operation on `a` dictates: the record of a final upsert,
absence after a final remove, or the prior value when `a` was never
targeted. -/
def lastResult (a : String) (ops : List ApplyOp) (dflt : Option PodMetadata) :
    Option PodMetadata :=
  match lastOpFor a ops with
  | some (.upsertOp _ r) => some r
  | some (.removeOp _) => none
  | none => dflt

/-- Claim C1: replaying any finite sequence of apply operations leaves, at each
address, exactly the record of the last upsert to it, nothing when the last
operation on it was a remove, and the prior value when no operation targeted
it — independent of the number of earlier upserts. -/
theorem applyOps_last_write_wins (m : PodMap) (ops : List ApplyOp) (a : String) :
    get (applyOps m ops) a = lastResult a ops (get m a) := by
  induction ops generalizing m with
  | nil => rfl
  | cons op rest ih =>
    rw [applyOps, ih]
    have hcons : lastOpFor a (op :: rest) =
        match lastOpFor a rest with
        | some o => some o
        | none => if opAddr op = a then some op else none := rfl
    cases hl : lastOpFor a rest with
    | some o => cases o <;> simp [lastResult, hcons, hl]
    | none =>
      cases op with
      | upsertOp b r =>
        by_cases hb : b = a
        · subst hb
          simp [lastResult, hcons, hl, opAddr, applyStep, get_upsert]
        · simp [lastResult, hcons, hl, opAddr, hb, applyStep, get_upsert]
      | removeOp b =>
        by_cases hb : b = a
        · subst hb
          simp [lastResult, hcons, hl, opAddr, applyStep, get_remove]
        · simp [lastResult, hcons, hl, opAddr, hb, applyStep, get_remove]

/-! ### Concrete sample pods -/

/-- A spec sub-object with no containers. -/
def sampleSpec : PodSpec := { node_name := some "node-1", containers := none }

/-- A status sub-object carrying the given pod IP. -/
def sampleStatus (ip : String) : PodStatus :=
  { phase := some "Running", pod_ip := some ip, host_ip := some "10.0.0.100",
    start_time := none, conditions := none }

/-- A metadata sub-object with no labels and no annotations. -/
def sampleMeta (name : String) : PodMeta :=
  { name := name, «namespace» := "default", uid := name ++ "-uid",
    labels := none, annotations := none }

/-- A well-formed pod: all three sub-objects present, with the given IP. -/
def goodPod (name ip : String) : Pod :=
  { metadata := some (sampleMeta name),
    spec := some sampleSpec,
    status := some (sampleStatus ip) }

/-- A malformed pod: its IP is defined but its `metadata` sub-object is absent,
so `extract_pod_metadata` raises on it. -/
def badPod : Pod :=
  { metadata := none, spec := some sampleSpec, status := some (sampleStatus "10.0.0.1") }

/-! ### Claim C2: reconnection behaviour of the watch loop -/

/-- Claim C2 counterexample: a stream that terminates without raising any
exception falls out of the try block and is re-opened immediately — the
backoff slept is 0, not the 5 time units the claim requires whenever the
stream "terminates or raises". -/
theorem watch_exhausted_no_backoff :
    watch_iteration [] { events := [], ending := StreamEnd.exhausted } = ([], 0) ∧
    (0 : Nat) ≠ 5 :=
  ⟨rfl, by decide⟩

/-- Helper for C2: iterations that deliver no events leave the store exactly
as it was, however many reconnections occur. -/
theorem watch_loop_empty_events (its : List StreamIteration) (m : PodMap)
    (hempty : ∀ j ∈ its, j.events = []) : watch_loop m its = m := by
  induction its generalizing m with
  | nil => rfl
  | cons j rest ih =>
    have hj : j.events = [] := hempty j (List.mem_cons_self j rest)
    have h1 : (watch_iteration m j).1 = m := by
      cases hend : j.ending <;> simp [watch_iteration, hj, run_stream, hend]
    rw [watch_loop, h1]
    exact ih m fun x hx => hempty x (List.mem_cons_of_mem _ hx)

/-- Claim C2 (amended): the loop never exits — every iteration yields a state
for the next one.  The backoff slept is 5 exactly when an exception was raised
(while processing an event or by the stream itself); a stream that terminates
cleanly is re-opened immediately with backoff 0.  The failure handling never
touches the store: the map on resume is exactly the map at the moment the
stream stopped, and since bootstrapping is not re-run, the store persists
unchanged across any number of event-free reconnections. -/
theorem watch_iteration_reconnect (m : PodMap) (it : StreamIteration)
    (its : List StreamIteration) (hempty : ∀ j ∈ its, j.events = []) :
    (watch_iteration m it).1 = (run_stream m it.events).1 ∧
    (watch_iteration m it).2 =
      (if (run_stream m it.events).2.isSome || it.ending.isRaised then 5 else 0) ∧
    watch_loop m its = m := by
  refine ⟨?_, ?_, watch_loop_empty_events its m hempty⟩ <;>
  · rcases hrs : run_stream m it.events with ⟨m2, err⟩
    cases err with
    | some e => simp [watch_iteration, hrs]
    | none =>
      cases hend : it.ending with
      | exhausted => simp [watch_iteration, hrs, hend, StreamEnd.isRaised]
      | raised msg => simp [watch_iteration, hrs, hend, StreamEnd.isRaised]

/-- Witness for the amended C2 at a concrete failing stream. -/
theorem watch_iteration_reconnect_witness :
    (watch_iteration [] { events := [], ending := StreamEnd.raised "net down" }).1 =
      (run_stream ([] : PodMap) []).1 ∧
    (watch_iteration [] { events := [], ending := StreamEnd.raised "net down" }).2 =
      (if (run_stream ([] : PodMap) []).2.isSome ||
          (StreamIteration.mk [] (StreamEnd.raised "net down")).ending.isRaised
        then 5 else 0) ∧
    watch_loop ([] : PodMap) [] = [] :=
  watch_iteration_reconnect [] { events := [], ending := StreamEnd.raised "net down" } []
    (by intro j hj; cases hj)

/-! ### Claim C3: a malformed resource during the bootstrap listing -/

/-- Claim C3 counterexample: in the listing `[badPod, goodPod]` the malformed
first item raises during extraction; the single try/except around the whole
loop aborts the rest of the listing, so the well-formed pod with IP 10.0.0.2
is never indexed — contradicting "every other well-formed resource in the
same listing is still indexed". -/
theorem bootstrap_malformed_aborts_listing :
    extract_pod_metadata badPod = .error "AttributeError" ∧
    bootstrap_list [] [badPod, goodPod "web" "10.0.0.2"] = [] ∧
    get (bootstrap_list [] [badPod, goodPod "web" "10.0.0.2"]) "10.0.0.2" = none :=
  ⟨rfl, rfl, rfl⟩

/-- Claim C3 (amended): an extraction failure during the bootstrap listing is
caught only by the try/except around the whole loop: every resource indexed
from the part of the listing before the malformed item is kept, but the
malformed item and every resource after it are not indexed in this pass. -/
theorem bootstrap_list_abort (m : PodMap) (pre : List Pod) (p : Pod) (suf : List Pod)
    (e : String) (hpre : bootstrapOk m pre = true)
    (hp : bootstrap_step (bootstrap_list m pre) p = .error e) :
    bootstrap_list m (pre ++ p :: suf) = bootstrap_list m pre := by
  revert hpre hp
  induction pre generalizing m with
  | nil =>
    intro hpre hp
    rw [bootstrap_list] at hp
    simp only [List.nil_append, bootstrap_list, hp]
  | cons q rest ih =>
    intro hpre hp
    simp only [List.cons_append, bootstrap_list] at hp ⊢
    cases hq : bootstrap_step m q with
    | ok m2 =>
      simp only [hq] at hp ⊢
      have hok : bootstrapOk m2 rest = true := by
        simpa only [bootstrapOk, hq] using hpre
      exact ih m2 hok hp
    | error e2 => rfl

/-- Witness for the amended C3 at a concrete listing. -/
theorem bootstrap_list_abort_witness :
    bootstrapOk [] [goodPod "web" "10.0.0.2"] = true ∧
    bootstrap_step (bootstrap_list [] [goodPod "web" "10.0.0.2"]) badPod =
      .error "AttributeError" ∧
    bootstrap_list [] ([goodPod "web" "10.0.0.2"] ++ badPod :: [goodPod "api" "10.0.0.3"]) =
      bootstrap_list [] [goodPod "web" "10.0.0.2"] :=
  ⟨by decide, by decide,
    bootstrap_list_abort [] [goodPod "web" "10.0.0.2"] badPod [goodPod "api" "10.0.0.3"]
      "AttributeError" (by decide) (by decide)⟩

/-- A status sub-object of a pod not yet scheduled: no IP assigned. -/
def pendingStatus : PodStatus :=
  { phase := some "Pending", pod_ip := none, host_ip := none,
    start_time := none, conditions := none }

/-- A well-formed pod whose primary address is undefined. -/
def pendingPod : Pod :=
  { metadata := some (sampleMeta "pending"), spec := some sampleSpec,
    status := some pendingStatus }

/-! ### Claim C4: no entry without a primary address -/

/-- Claim C4: a resource whose pod IP is undefined never produces an index
entry: both the bootstrap path and the streaming path (for every event kind)
return the map exactly unchanged, creating no placeholder key. -/
theorem no_entry_without_ip (m : PodMap) (pod : Pod) (st : PodStatus) (t : String)
    (hst : pod.status = some st) (hip : st.pod_ip = none) :
    bootstrap_step m pod = .ok m ∧ apply_event m { type := t, object := pod } = .ok m := by
  constructor
  · simp [bootstrap_step, hst, hip]
  · simp only [apply_event, hst, hip]
    by_cases h1 : t = "ADDED" ∨ t = "MODIFIED"
    · simp [h1]
    · by_cases h2 : t = "DELETED" <;> simp [h1, h2]

/-- Witness for C4 at a concrete pending pod. -/
theorem no_entry_without_ip_witness :
    bootstrap_step [] pendingPod = .ok [] ∧
    apply_event [] { type := "ADDED", object := pendingPod } = .ok [] :=
  no_entry_without_ip [] pendingPod pendingStatus "ADDED" rfl rfl

/-! ### Claim C5: removing an absent address is a no-op -/

/-- Claim C5: for an address not present in the store, the remove operation
returns the store exactly unchanged and raises no error; likewise a `DELETED`
event whose final observed state has no pod IP at all, and a `DELETED` event
naming an address that was never inserted, both leave the store unchanged. -/
theorem remove_absent_noop (m : PodMap) (a : String) (podN podA : Pod)
    (stN stA : PodStatus) (hc : dictContains m a = false)
    (hstN : podN.status = some stN) (hipN : stN.pod_ip = none)
    (hstA : podA.status = some stA) (hipA : stA.pod_ip = some a) (ha : a ≠ "") :
    remove m a = m ∧
    apply_event m { type := "DELETED", object := podN } = .ok m ∧
    apply_event m { type := "DELETED", object := podA } = .ok m := by
  have hD : ¬ (("DELETED" : String) = "ADDED" ∨ ("DELETED" : String) = "MODIFIED") := by
    decide
  have hrm : remove m a = m := by simp [remove, hc]
  refine ⟨hrm, ?_, ?_⟩
  · simp [apply_event, hstN, hipN, hD]
  · simp [apply_event, hstA, hipA, hD, ha, hrm]

/-- Witness for C5 at a concrete empty store. -/
theorem remove_absent_noop_witness :
    remove [] "10.0.0.9" = [] ∧
    apply_event [] { type := "DELETED", object := pendingPod } = .ok [] ∧
    apply_event [] { type := "DELETED", object := goodPod "gone" "10.0.0.9" } = .ok [] :=
  remove_absent_noop [] "10.0.0.9" pendingPod (goodPod "gone" "10.0.0.9")
    pendingStatus (sampleStatus "10.0.0.9") rfl rfl rfl rfl rfl (by decide)

/-! ### Claim C6: read-after-write -/

/-- Claim C6: an upsert followed by a get on the same address with no
intervening write returns exactly the just-inserted record, both at the store
level and through the HTTP point lookup. -/
theorem get_after_upsert (m : PodMap) (a : String) (r : PodMetadata) (ha : a ≠ "") :
    get (upsert m a r) a = some r ∧
    get_pod_by_ip (upsert m a r) (some a) = (200, .record r) := by
  have hg : get (upsert m a r) a = some r := by simp [get_upsert]
  refine ⟨hg, ?_⟩
  simp [get_pod_by_ip, ha, hg]

/-- A concrete metadata record for witnesses. -/
def sampleRecord : PodMetadata :=
  { name := "web"
    «namespace» := "default"
    uid := "web-uid"
    labels := []
    annotations := []
    node_name := some "node-1"
    phase := some "Running"
    pod_ip := some "10.0.0.5"
    host_ip := some "10.0.0.100"
    start_time := none
    conditions := []
    containers := [] }

/-- Witness for C6 at a concrete store, address and record. -/
theorem get_after_upsert_witness :
    get (upsert [] "10.0.0.5" sampleRecord) "10.0.0.5" = some sampleRecord ∧
    get_pod_by_ip (upsert [] "10.0.0.5" sampleRecord) (some "10.0.0.5") =
      (200, .record sampleRecord) :=
  get_after_upsert [] "10.0.0.5" sampleRecord (by decide)

/-! ### Claim C7: the extractor tolerates absent optional substructures -/

/-- Claim C7: on a resource whose optional substructures (labels, annotations,
conditions, containers — hence container ports — and start timestamp) are all
absent, the extractor still succeeds, producing a record in which each absent
collection is the empty collection and the absent start timestamp stays
absent; no error is raised for these absences. -/
theorem extract_absent_optionals (md : PodMeta) (sp : PodSpec) (st : PodStatus)
    (hl : md.labels = none) (ha : md.annotations = none)
    (hc : st.conditions = none) (hco : sp.containers = none)
    (hti : st.start_time = none) :
    ∃ r, extract_pod_metadata { metadata := some md, spec := some sp, status := some st } =
        .ok r ∧
      r.labels = [] ∧ r.annotations = [] ∧ r.conditions = [] ∧ r.containers = [] ∧
      r.start_time = none := by
  refine ⟨_, rfl, ?_, ?_, ?_, ?_, ?_⟩ <;> simp [hl, ha, hc, hco, hti]

/-- Witness for C7 at a concrete bare pod. -/
theorem extract_absent_optionals_witness :
    ∃ r, extract_pod_metadata
        { metadata := some (sampleMeta "bare"), spec := some sampleSpec,
          status := some pendingStatus } = .ok r ∧
      r.labels = [] ∧ r.annotations = [] ∧ r.conditions = [] ∧ r.containers = [] ∧
      r.start_time = none :=
  extract_absent_optionals (sampleMeta "bare") sampleSpec pendingStatus rfl rfl rfl rfl rfl

/-! ### Claim C8: responses of the point-lookup route -/

/-- Claim C8 counterexample: a supplied but empty ip parameter — supplied, and
absent from the index — is answered with 400 by the `if not ip` guard, not
with the 404 the claim requires for every supplied ip absent from the
index. -/
theorem get_pod_empty_ip_param :
    get ([] : PodMap) "" = none ∧
    get_pod_by_ip ([] : PodMap) (some "") = (400, .errorMsg "IP parameter is required") ∧
    (get_pod_by_ip ([] : PodMap) (some "")).1 ≠ 404 :=
  ⟨rfl, rfl, by decide⟩

/-- Claim C8 (amended): an omitted ip parameter — and likewise a supplied but
empty one, which the truthiness test treats identically — yields 400 with the
fixed error body; a supplied non-empty ip absent from the index yields 404
naming the queried address; a supplied non-empty ip present in the index
yields 200 with that address's record. -/
theorem get_pod_by_ip_responses (m : PodMap) (s : String) (hs : s ≠ "") :
    get_pod_by_ip m none = (400, .errorMsg "IP parameter is required") ∧
    get_pod_by_ip m (some "") = (400, .errorMsg "IP parameter is required") ∧
    (get m s = none →
      get_pod_by_ip m (some s) = (404, .errorMsg ("No pod found with IP " ++ s))) ∧
    ∀ r, get m s = some r → get_pod_by_ip m (some s) = (200, .record r) := by
  refine ⟨rfl, rfl, ?_, ?_⟩
  · intro h
    simp [get_pod_by_ip, hs, h]
  · intro r h
    simp [get_pod_by_ip, hs, h]

/-- Witness for the amended C8 at a concrete one-entry store. -/
theorem get_pod_by_ip_responses_witness :
    get_pod_by_ip [("10.0.0.5", sampleRecord)] none =
      (400, .errorMsg "IP parameter is required") ∧
    get_pod_by_ip [("10.0.0.5", sampleRecord)] (some "") =
      (400, .errorMsg "IP parameter is required") ∧
    (get [("10.0.0.5", sampleRecord)] "10.0.0.5" = none →
      get_pod_by_ip [("10.0.0.5", sampleRecord)] (some "10.0.0.5") =
        (404, .errorMsg ("No pod found with IP " ++ "10.0.0.5"))) ∧
    ∀ r, get [("10.0.0.5", sampleRecord)] "10.0.0.5" = some r →
      get_pod_by_ip [("10.0.0.5", sampleRecord)] (some "10.0.0.5") = (200, .record r) :=
  get_pod_by_ip_responses [("10.0.0.5", sampleRecord)] "10.0.0.5" (by decide)

/-! ### Claim C10: key/field agreement of the index -/

/-- Every stored record's own pod IP field equals the key it is stored
under. -/
def KeyAgree (m : PodMap) : Prop := ∀ p ∈ m, p.2.pod_ip = some p.1

theorem mem_dictInsert {α : Type} (m : List (String × α)) (k : String) (v : α)
    (p : String × α) (hp : p ∈ dictInsert m k v) : p ∈ m ∨ p = (k, v) := by
  induction m with
  | nil =>
    right
    simpa [dictInsert] using hp
  | cons q rest ih =>
    obtain ⟨k0, v0⟩ := q
    by_cases h : k0 = k
    · subst h
      simp only [dictInsert, if_true, eq_self_iff_true, List.mem_cons] at hp
      rcases hp with hp | hp
      · right; exact hp
      · left; exact List.mem_cons_of_mem _ hp
    · simp only [dictInsert, if_neg h, List.mem_cons] at hp
      rcases hp with hp | hp
      · left; simp [hp]
      · rcases ih hp with h1 | h1
        · left; exact List.mem_cons_of_mem _ h1
        · right; exact h1

theorem mem_dictErase {α : Type} (m : List (String × α)) (k : String)
    (p : String × α) (hp : p ∈ dictErase m k) : p ∈ m := by
  induction m with
  | nil => simp [dictErase] at hp
  | cons q rest ih =>
    obtain ⟨k0, v0⟩ := q
    by_cases h : k0 = k
    · simp only [dictErase, if_pos h] at hp
      exact List.mem_cons_of_mem _ (ih hp)
    · simp only [dictErase, if_neg h, List.mem_cons] at hp
      rcases hp with hp | hp
      · simp [hp]
      · exact List.mem_cons_of_mem _ (ih hp)

theorem keyAgree_upsert (m : PodMap) (a : String) (r : PodMetadata)
    (hr : r.pod_ip = some a) (h : KeyAgree m) : KeyAgree (upsert m a r) := by
  intro p hp
  rcases mem_dictInsert m a r p hp with h1 | h1
  · exact h p h1
  · rw [h1]
    exact hr

theorem keyAgree_remove (m : PodMap) (a : String) (h : KeyAgree m) :
    KeyAgree (remove m a) := by
  intro p hp
  unfold remove at hp
  by_cases hc : dictContains m a
  · rw [if_pos hc] at hp
    exact h p (mem_dictErase m a p hp)
  · rw [if_neg hc] at hp
    exact h p hp

/-- The extractor copies the status pod IP into the record unchanged. -/
theorem extract_pod_ip (pod : Pod) (st : PodStatus) (r : PodMetadata)
    (hst : pod.status = some st) (hex : extract_pod_metadata pod = .ok r) :
    r.pod_ip = st.pod_ip := by
  obtain ⟨pm, ps, pst⟩ := pod
  simp only at hst
  subst hst
  cases pm with
  | none => simp [extract_pod_metadata] at hex
  | some md =>
    cases ps with
    | none => simp [extract_pod_metadata] at hex
    | some sp =>
      simp only [extract_pod_metadata, Except.ok.injEq] at hex
      rw [← hex]

theorem bootstrap_step_keyAgree (m m2 : PodMap) (pod : Pod) (h : KeyAgree m)
    (hs : bootstrap_step m pod = .ok m2) : KeyAgree m2 := by
  unfold bootstrap_step at hs
  split at hs
  next hst => simp at hs
  next st hst =>
    split at hs
    next hip =>
      injection hs with hs2
      subst hs2
      exact h
    next ip hip =>
      split at hs
      next hie =>
        injection hs with hs2
        subst hs2
        exact h
      next hie =>
        split at hs
        next md hex =>
          injection hs with hs2
          subst hs2
          refine keyAgree_upsert m ip md ?_ h
          rw [extract_pod_ip pod st md hst hex, hip]
        next e hex => simp at hs

theorem apply_event_keyAgree (m m2 : PodMap) (ev : WatchEvent) (h : KeyAgree m)
    (hs : apply_event m ev = .ok m2) : KeyAgree m2 := by
  unfold apply_event at hs
  split at hs
  next hst => simp at hs
  next st hst =>
    split at hs
    next h1 =>
      split at hs
      next hip =>
        injection hs with hs2
        subst hs2
        exact h
      next ip hip =>
        split at hs
        next hie =>
          injection hs with hs2
          subst hs2
          exact h
        next hie =>
          split at hs
          next md hex =>
            injection hs with hs2
            subst hs2
            refine keyAgree_upsert m ip md ?_ h
            rw [extract_pod_ip ev.object st md hst hex, hip]
          next e hex => simp at hs
    next h1 =>
      split at hs
      next h2 =>
        split at hs
        next hip =>
          injection hs with hs2
          subst hs2
          exact h
        next ip hip =>
          split at hs
          next hie =>
            injection hs with hs2
            subst hs2
            exact h
          next hie =>
            injection hs with hs2
            subst hs2
            exact keyAgree_remove m ip h
      next h2 =>
        injection hs with hs2
        subst hs2
        exact h

theorem bootstrap_list_keyAgree (pods : List Pod) (m : PodMap) (h : KeyAgree m) :
    KeyAgree (bootstrap_list m pods) := by
  induction pods generalizing m with
  | nil => exact h
  | cons pod rest ih =>
    cases hs : bootstrap_step m pod with
    | ok m2 =>
      simp only [bootstrap_list, hs]
      exact ih m2 (bootstrap_step_keyAgree m m2 pod h hs)
    | error e =>
      simp only [bootstrap_list, hs]
      exact h

theorem run_stream_keyAgree (evs : List WatchEvent) (m : PodMap) (h : KeyAgree m) :
    KeyAgree (run_stream m evs).1 := by
  induction evs generalizing m with
  | nil => exact h
  | cons ev rest ih =>
    cases hs : apply_event m ev with
    | ok m2 =>
      simp only [run_stream, hs]
      exact ih m2 (apply_event_keyAgree m m2 ev h hs)
    | error e =>
      simp only [run_stream, hs]
      exact h

/-- Claim C10: starting from any store in which every record's pod IP field
equals its key (the empty initial store included), every bootstrap step, every
streamed event, the whole bootstrap listing and any run of the stream preserve
this key/field agreement: each entry ever inserted is stored under exactly the
pod IP its own record carries. -/
theorem index_key_field_agreement (m : PodMap) (h : KeyAgree m) :
    (∀ pod m2, bootstrap_step m pod = .ok m2 → KeyAgree m2) ∧
    (∀ ev m2, apply_event m ev = .ok m2 → KeyAgree m2) ∧
    (∀ pods, KeyAgree (bootstrap_list m pods)) ∧
    (∀ evs, KeyAgree (run_stream m evs).1) :=
  ⟨fun pod m2 hs => bootstrap_step_keyAgree m m2 pod h hs,
   fun ev m2 hs => apply_event_keyAgree m m2 ev h hs,
   fun pods => bootstrap_list_keyAgree pods m h,
   fun evs => run_stream_keyAgree evs m h⟩

/-- Witness for C10 from the empty initial store. -/
theorem index_key_field_agreement_witness :
    (∀ pod m2, bootstrap_step [] pod = .ok m2 → KeyAgree m2) ∧
    (∀ ev m2, apply_event [] ev = .ok m2 → KeyAgree m2) ∧
    (∀ pods, KeyAgree (bootstrap_list [] pods)) ∧
    (∀ evs, KeyAgree (run_stream [] evs).1) :=
  index_key_field_agreement [] (by intro p hp; cases hp)

end PodWatcher
